import Mathlib

/-!
Verification of the mailbot rule engine: a shallow embedding of
`email_utils.py`, `handlers.py`, `proxy_utils.py`, `imap_utils.py` and
`query_dsl.py`, with theorems settling the specification claims about
deduplication, handler pipelines, the event loop, the connection
supervisor and the search-query compiler.
-/

namespace Mailbot

/-- Canonical message identifier: the value of the Message-ID header,
`none` when the header is absent (Python `themail["Message-ID"]` is `None`). -/
abbrev MsgId := Option String

/-- A Python `set` of message identifiers. -/
abbrev IdSet := Finset MsgId

/-- Status strings returned by imaplib commands; the code compares them
to the literal `"OK"`. -/
abbrev Status := String

/-- Embedding of `email_utils.should_process_message`: skip when the id is
already in `seen_ids`, otherwise record it (`seen_ids | {message_id}`). -/
def should_process_message (message_id : MsgId) (seen_ids : IdSet) :
    Bool × IdSet :=
  if message_id ∈ seen_ids then (false, seen_ids)
  else (true, insert message_id seen_ids)

/-- Python truthiness of an optional header string: `None` and the empty
string are falsy. -/
def pyTruthy : Option String → Bool
  | none => false
  | some s => !(s == "")

/-- Embedding of Python `a or b` on optional header strings. -/
def pyOr (a b : Option String) : Option String :=
  if pyTruthy a then a else b

/-- The header fields of one parsed message that the handlers consult,
plus the URL list that `proxy_extract_urls` produces for it (the regex
extraction itself is an external text heuristic, abstracted as data). -/
structure EMail where
  messageId : MsgId
  replyTo : Option String
  fromAddr : Option String
  senderAddr : Option String
  toAddr : Option String
  subject : Option String
  urls : List String
deriving DecidableEq, Repr

/-- The configuration fields used by the three content handlers. -/
structure Config where
  workForwardTo : String
  workReplyFrom : String
  workForwardBy : String
  obnoxiousReplyFrom : String
  proxyStoreTo : String
  proxySendFrom : String
  kindleSendFrom : String
  kindleSendTo : String
deriving DecidableEq, Repr

/-- Observable mailbox/SMTP side effects of a handler, in execution order.
`send` records the `from_addr`/`to_addr` arguments passed to `send_fn`
and whether that attempt succeeded; a failed attempt is still an attempt. -/
inductive Event where
  | fetch (uids : List String)
  | delete (uids : List String)
  | expunge
  | send (fromAddr : String) (toAddr : Option String) (ok : Bool)
  | append (folder : String) (toAddr : Option String)
deriving DecidableEq, Repr

/-- Embedding of the per-item body of `WorkEmail.handler` (handlers.py
lines 107-177): dedup check first; on an unseen item resolve the sender
as `Reply-To or From or Sender`, send the forward
(`work_forward_by → work_forward_to`), then — the SMTPException from the
forward being caught and only logged — send the reply
(`work_reply_from → thesender`).  `sendOk k` is the outcome of the k-th
send attempt of this handler invocation; `k` counts attempts so far. -/
def workEmailItem (cfg : Config) (sendOk : Nat → Bool) (k : Nat)
    (m : EMail) (seen : IdSet) : IdSet × List Event × Nat :=
  let (shouldProcess, seen') := should_process_message m.messageId seen
  if shouldProcess then
    let thesender := pyOr m.replyTo (pyOr m.fromAddr m.senderAddr)
    (seen',
     [Event.send cfg.workForwardBy (some cfg.workForwardTo) (sendOk k),
      Event.send cfg.workReplyFrom thesender (sendOk (k + 1))],
     k + 2)
  else
    (seen', [], k)

/-- Embedding of the per-item body of `Obnoxious.handler` (handlers.py
lines 208-251): dedup check first; on an unseen item resolve the sender
as `Reply-To or From or Sender` and send one rejection reply
(`obnoxious_reply_from → thesender`), its SMTPException caught. -/
def obnoxiousItem (cfg : Config) (sendOk : Nat → Bool) (k : Nat)
    (m : EMail) (seen : IdSet) : IdSet × List Event × Nat :=
  let (shouldProcess, seen') := should_process_message m.messageId seen
  if shouldProcess then
    let thesender := pyOr m.replyTo (pyOr m.fromAddr m.senderAddr)
    (seen',
     [Event.send cfg.obnoxiousReplyFrom thesender (sendOk k)],
     k + 1)
  else
    (seen', [], k)

/-- The option record computed by `proxy_parse_options`: flags decoded
from substrings of the To address, and the outgoing from/to addresses. -/
structure ProxyOptions where
  asTxt : Bool
  bleachHtml : Bool
  includeImages : Bool
  txtWithoutLinks : Bool
  sendUsingSmtp : Bool
  asInline : Bool
  sendFrom : String
  sendTo : Option String
deriving DecidableEq, Repr

/-- Occurrence of `pat` as a contiguous run inside a character list. -/
def hasSubstring (pat : List Char) : List Char → Bool
  | [] => pat.isEmpty
  | c :: rest => pat.isPrefixOf (c :: rest) || hasSubstring pat rest

/-- Substring test on strings (Python `in` on str). -/
def strContains (s pat : String) : Bool :=
  hasSubstring pat.data s.data

/-- Python `str.lower()` (ASCII case folding, as all option markers are
ASCII). -/
def pyLower (s : String) : String :=
  ⟨s.data.map Char.toLower⟩

/-- Embedding of `proxy_parse_options` (proxy_utils.py lines 56-88). -/
def proxy_parse_options (toAddr : Option String) (cfg : Config)
    (sender : Option String) : ProxyOptions :=
  let toLower := pyLower (toAddr.getD "")
  let isKindle := strContains toLower "kindle"
  { asTxt := strContains toLower "txt"
    bleachHtml := strContains toLower "bleach"
    includeImages := strContains toLower "images"
    txtWithoutLinks := strContains toLower "wolinks"
    sendUsingSmtp := isKindle
    asInline := strContains toLower "inline"
    sendFrom := if isKindle then cfg.kindleSendFrom else cfg.proxySendFrom
    sendTo := if isKindle then some cfg.kindleSendTo else sender }

/-- Embedding of `proxy_fetch_and_store_url` for one URL: on a successful
fetch-and-build (`fetchOk u`) the message is appended to
`proxy_store_to`, then sent via SMTP when the kindle option is set
(`smtpOk u` is that attempt's outcome, its exception caught); a fetch or
build failure is caught per URL and produces no events. -/
def proxy_fetch_and_store_url (cfg : Config) (fetchOk : String → Bool)
    (smtpOk : String → Bool) (opts : ProxyOptions) (u : String) :
    List Event :=
  if fetchOk u then
    Event.append cfg.proxyStoreTo opts.sendTo ::
      (if opts.sendUsingSmtp then [Event.send opts.sendFrom opts.sendTo (smtpOk u)]
       else [])
  else []

/-- Embedding of `proxy_process_email` (proxy_utils.py lines 328-375):
a non-tuple or unparseable fetch item (`none`) is skipped; dedup check
first; on an unseen item the sender is resolved as `From or Sender`
(no Reply-To), options are decoded from the To address, and each
extracted URL is fetched, stored and optionally sent. -/
def proxy_process_email (cfg : Config) (fetchOk smtpOk : String → Bool)
    (item : Option EMail) (seen : IdSet) : IdSet × List Event :=
  match item with
  | none => (seen, [])
  | some m =>
    let (shouldProcess, seen') := should_process_message m.messageId seen
    if shouldProcess then
      let thesender := pyOr m.fromAddr m.senderAddr
      let opts := proxy_parse_options m.toAddr cfg thesender
      (seen', m.urls.flatMap (proxy_fetch_and_store_url cfg fetchOk smtpOk opts))
    else
      (seen', [])

/-- Fold of `workEmailItem` over the fetched items, as the `for ret in
data` loop of `WorkEmail.handler` does; `none` items (non-tuples and
parse failures) are skipped. -/
def workEmailItems (cfg : Config) (sendOk : Nat → Bool) :
    List (Option EMail) → Nat → IdSet → IdSet × List Event × Nat
  | [], k, seen => (seen, [], k)
  | none :: rest, k, seen => workEmailItems cfg sendOk rest k seen
  | some m :: rest, k, seen =>
    let r := workEmailItem cfg sendOk k m seen
    let r' := workEmailItems cfg sendOk rest r.2.2 r.1
    (r'.1, r.2.1 ++ r'.2.1, r'.2.2)

/-- Embedding of `WorkEmail.handler` over one matched set: the FETCH,
then the per-item loop; the handler returns the FETCH status unchanged. -/
def workEmailHandler (cfg : Config) (sendOk : Nat → Bool)
    (uids : List String) (fetchRes : Status) (items : List (Option EMail))
    (seen : IdSet) : Status × IdSet × List Event :=
  let r := workEmailItems cfg sendOk items 0 seen
  (fetchRes, r.1, Event.fetch uids :: r.2.1)

/-- Fold of `obnoxiousItem` over the fetched items. -/
def obnoxiousItems (cfg : Config) (sendOk : Nat → Bool) :
    List (Option EMail) → Nat → IdSet → IdSet × List Event × Nat
  | [], k, seen => (seen, [], k)
  | none :: rest, k, seen => obnoxiousItems cfg sendOk rest k seen
  | some m :: rest, k, seen =>
    let r := obnoxiousItem cfg sendOk k m seen
    let r' := obnoxiousItems cfg sendOk rest r.2.2 r.1
    (r'.1, r.2.1 ++ r'.2.1, r'.2.2)

/-- Embedding of `Obnoxious.handler` (handlers.py lines 201-253): FETCH,
then `Delete()` and `Expunge()` on the whole matched set, then the
per-item dedup/reply loop. -/
def obnoxiousHandler (cfg : Config) (sendOk : Nat → Bool)
    (uids : List String) (fetchRes : Status) (items : List (Option EMail))
    (seen : IdSet) : Status × IdSet × List Event :=
  let r := obnoxiousItems cfg sendOk items 0 seen
  (fetchRes, r.1,
   Event.fetch uids :: Event.delete uids :: Event.expunge :: r.2.1)

/-- Fold of `proxy_process_email` over the fetched items, as the `for ret
in data` loop of `Proxy.handler` does. -/
def proxyItems (cfg : Config) (fetchOk smtpOk : String → Bool) :
    List (Option EMail) → IdSet → IdSet × List Event
  | [], seen => (seen, [])
  | item :: rest, seen =>
    let r := proxy_process_email cfg fetchOk smtpOk item seen
    let r' := proxyItems cfg fetchOk smtpOk rest r.1
    (r'.1, r.2 ++ r'.2)

/-- Embedding of `Proxy.handler`: the FETCH, then `proxy_process_email`
on each item. -/
def proxyHandler (cfg : Config) (fetchOk smtpOk : String → Bool)
    (uids : List String) (fetchRes : Status) (items : List (Option EMail))
    (seen : IdSet) : Status × IdSet × List Event :=
  let r := proxyItems cfg fetchOk smtpOk items seen
  (fetchRes, r.1, Event.fetch uids :: r.2)

/-! ## Event loop: `handlers.runQueries` -/

/-- A pipeline step as `runQueries` drives it: it receives the matched
uids and the working seen-set and returns `(status, updated set)`
(the raw `data` component plays no role in control flow beyond status). -/
abbrev RH := List String → IdSet → Status × IdSet

/-- The environment of one rule during one wake-up: the status and uid
list its SEARCH returned, and its handler pipeline. -/
structure RuleRun where
  searchRes : Status
  uids : List String
  pipeline : List RH

/-- Embedding of the inner `for handlef in handler_funcs` loop of
`runQueries`: each step runs only while the running status is `"OK"`.
Also counts how many handlers were invoked. -/
def runPipeline (uids : List String) :
    List RH → Status → IdSet → Status × IdSet × Nat
  | [], res, seen => (res, seen, 0)
  | h :: rest, res, seen =>
    if res = "OK" then
      let r := h uids seen
      let r' := runPipeline uids rest r.1 r.2
      (r'.1, r'.2.1, r'.2.2 + 1)
    else (res, seen, 0)

/-- Embedding of one iteration of the `for query_def in queries` loop of
`runQueries` (handlers.py lines 308-324): the SEARCH status overwrites
`result`; when it is `"OK"` and the uid list is non-empty, the pipeline
runs on `processed ∪ previous` and afterwards
`processed := seen \ previous`. Returns the new `(result, processed)`
and the number of handlers invoked. -/
def runRule (previous processed : IdSet) (r : RuleRun) :
    Status × IdSet × Nat :=
  if r.searchRes = "OK" then
    if r.uids.length > 0 then
      let seen0 := processed ∪ previous
      let p := runPipeline r.uids r.pipeline r.searchRes seen0
      (p.1, p.2.1 \ previous, p.2.2)
    else (r.searchRes, processed, 0)
  else (r.searchRes, processed, 0)

/-- The full `for query_def in queries` loop: rules are processed in
table order, each unconditionally issuing its SEARCH; `result` carries
over only into the value returned after the loop. The per-rule handler
invocation counts are collected. -/
def runRules (previous : IdSet) :
    List RuleRun → IdSet → Status → Status × IdSet × List Nat
  | [], processed, res => (res, processed, [])
  | r :: rest, processed, _res =>
    let a := runRule previous processed r
    let b := runRules previous rest a.2.1 a.1
    (b.1, b.2.1, a.2.2 :: b.2.2)

/-- One wake-up of `runQueries`: `previous := processed` of the last
wake-up, `processed := ∅`, then the pass over the rule table. -/
def runWakeup (rules : List RuleRun) (prevProcessed : IdSet) :
    Status × IdSet × List Nat :=
  runRules prevProcessed rules ∅ "OK"

/-- Environment of one `while` iteration of `runQueries`: the rule table
with this wake-up's search results, and what `imap_utils.idle` returns
afterwards (`response` is Python-truthy or not). -/
structure WakeEnv where
  rules : List RuleRun
  idleRes : Status
  idleResponse : Bool

/-- Embedding of the `while result == "OK"` loop of `runQueries`, driven
by a finite script of wake-up environments; the initial state is
`result = "OK"`, `response = True`, both dedup generations empty. For
each executed wake-up the trace records the `previous` set used and the
`processed` set left behind. -/
def runQueriesLoop :
    List WakeEnv → Status → Bool → IdSet → IdSet →
    List (List RuleRun × IdSet × IdSet)
  | [], _, _, _, _ => []
  | env :: rest, res, response, processed, previous =>
    if res = "OK" then
      if response then
        let previous' := processed
        let processed' := (runWakeup env.rules previous').2.1
        (env.rules, previous', processed') ::
          runQueriesLoop rest env.idleRes env.idleResponse processed' previous'
      else
        runQueriesLoop rest env.idleRes env.idleResponse processed previous
    else []

/-- Entry into `runQueries`: `result = "OK"`, `response = True`, both
dedup generations empty. -/
def runQueriesTrace (envs : List WakeEnv) :
    List (List RuleRun × IdSet × IdSet) :=
  runQueriesLoop envs "OK" true ∅ ∅

/-- Each wake-up's final `processed` set is the next wake-up's
`previous` set. -/
def chainedTrace : List (List RuleRun × IdSet × IdSet) → Prop
  | [] => True
  | [_] => True
  | a :: b :: rest => a.2.2 = b.2.1 ∧ chainedTrace (b :: rest)

/-! ## Connection supervisor: `imap_utils.run` and `imap_utils.idle` -/

/-- The exception classes distinguished by `run`'s `except` clauses:
`socket.error` and `imaplib.IMAP4.abort` (the transport pair),
`imaplib.IMAP4.error` (the base imaplib error, notably raised by `idle`
when the IDLE capability is missing), and any other `Exception`. -/
inductive PyExc where
  | socketError
  | imapAbort
  | imapError
  | otherExc
deriving DecidableEq, Repr

/-- Whether an exception is caught by the first clause
`except (socket.error, imaplib.IMAP4.abort)`. -/
def PyExc.isTransport : PyExc → Bool
  | .socketError => true
  | .imapAbort => true
  | _ => false

/-- Outcome of one `connect_and_select` + `runQueries` + `disconnect`
attempt in the body of `run`'s `while True` loop. -/
inductive SessionOutcome where
  | ok
  | exc (e : PyExc)
  | interrupt
deriving DecidableEq, Repr

/-- How a finite prefix of `run`'s execution ended. -/
inductive RunExit where
  | finishedOnce
  | shutdown
  | raised (e : PyExc)
  | stillRunning (retryDelay : Nat)
deriving DecidableEq, Repr

/-- Embedding of `imap_utils.run` (imap_utils.py lines 124-155), driven
by a finite script of session outcomes and threading `retry_delay`.
Returns the list of `time.sleep` delays performed, in order, and how the
loop ended. On success: break when `once`, else reset the delay. On a
transport exception: re-raise when `once`, else sleep and double the
delay capped at `maxDelay`. On KeyboardInterrupt: break. On any other
exception: re-raise when `once`, else sleep and double the delay capped
at `maxDelay`. -/
def run (once : Bool) (initialDelay maxDelay : Nat) :
    List SessionOutcome → Nat → List Nat × RunExit
  | [], d => ([], RunExit.stillRunning d)
  | o :: rest, d =>
    match o with
    | .ok =>
      if once then ([], RunExit.finishedOnce)
      else run once initialDelay maxDelay rest initialDelay
    | .interrupt => ([], RunExit.shutdown)
    | .exc e =>
      if e.isTransport then
        if once then ([], RunExit.raised e)
        else
          let r := run once initialDelay maxDelay rest (min (d * 2) maxDelay)
          (d :: r.1, r.2)
      else
        if once then ([], RunExit.raised e)
        else
          let r := run once initialDelay maxDelay rest (min (d * 2) maxDelay)
          (d :: r.1, r.2)

/-- Embedding of the capability check at the top of `imap_utils.idle`
(imap_utils.py lines 52-53): `raise connection.error(...)` — an
`imaplib.IMAP4.error`, not an `abort` — before any IDLE command is
issued, whenever `"IDLE"` is not among the connection capabilities. -/
def idleCapabilityCheck (capabilities : List String) : Except PyExc Unit :=
  if "IDLE" ∈ capabilities then Except.ok ()
  else Except.error PyExc.imapError

/-! ## Query DSL: `query_dsl.py` -/

/-- The four envelope fields of the DSL. -/
inductive Fld where
  | fromF
  | toF
  | ccF
  | subjF
deriving DecidableEq, Repr

/-- The SEARCH keyword each field builder emits. -/
def Fld.keyword : Fld → String
  | .fromF => "FROM"
  | .toF => "TO"
  | .ccF => "CC"
  | .subjF => "SUBJECT"

/-- Filter-expression trees: `field` is one thunk produced by
`From`/`To`/`Cc`/`Subject`; `orE hd tl` is `or_combine` over the
non-empty thunk list `hd :: tl`, `andE` likewise for `and_combine`, and
`notE` is `not_combine` over its (flattened) children. -/
inductive FilterExpr where
  | field (f : Fld) (v : String)
  | orE (hd : FilterExpr) (tl : List FilterExpr)
  | andE (hd : FilterExpr) (tl : List FilterExpr)
  | notE (children : List FilterExpr)

mutual

/-- Embedding of thunk evaluation in `query_dsl.py`: a field compiles to
`(KW "v")`; `or_combine` left-folds `(OR prev item)`; `and_combine`
left-folds `(prev item)`; `not_combine` space-joins its children inside
`(NOT ...)`. -/
def compile : FilterExpr → String
  | .field f v => "(" ++ f.keyword ++ " \"" ++ v ++ "\")"
  | .orE hd tl => orFold (compile hd) tl
  | .andE hd tl => andFold (compile hd) tl
  | .notE cs => "(NOT " ++ spaceJoin cs ++ ")"

/-- The loop body of `or_combine.reduce`:
`result = f"(OR {result} {item()})"`. -/
def orFold : String → List FilterExpr → String
  | acc, [] => acc
  | acc, c :: rest => orFold ("(OR " ++ acc ++ " " ++ compile c ++ ")") rest

/-- The loop body of `and_combine.reduce`:
`result = f"({result} {item()})"`. -/
def andFold : String → List FilterExpr → String
  | acc, [] => acc
  | acc, c :: rest => andFold ("(" ++ acc ++ " " ++ compile c ++ ")") rest

/-- Python `" ".join(x() for x in items)`. -/
def spaceJoin : List FilterExpr → String
  | [] => ""
  | [c] => compile c
  | c :: rest => compile c ++ " " ++ spaceJoin rest

end

/-- Embedding of `parseQuery` / `Match`: a singleton list unwraps its
element, a longer list is `or_combine`d; the empty list raises
(IndexError), modelled as `none`. -/
def parseQuery : List FilterExpr → Option String
  | [] => none
  | e :: rest =>
    if rest.isEmpty then some (compile e)
    else some (orFold (compile e) rest)

/-! ## Analysis vocabulary for the compiled search strings -/

/-- Left-to-right parenthesis scan: `some n` is the current nesting depth,
`none` means a closing parenthesis occurred at depth zero. -/
def parenScan : List Char → Nat → Option Nat
  | [], n => some n
  | c :: rest, n =>
    if c = '(' then parenScan rest (n + 1)
    else if c = ')' then
      match n with
      | 0 => none
      | m + 1 => parenScan rest m
    else parenScan rest n

/-- A string has balanced parentheses: the scan never dips below zero and
ends at depth zero. -/
def balancedParens (s : String) : Bool :=
  parenScan s.data 0 == some 0

/-- A value string is paren-free. -/
def cleanValue (v : String) : Bool :=
  v.data.all fun c => !(c = '(') && !(c = ')')

mutual

/-- All field values in the tree are paren-free. -/
def cleanExpr : FilterExpr → Bool
  | .field _ v => cleanValue v
  | .orE hd tl => cleanExpr hd && cleanList tl
  | .andE hd tl => cleanExpr hd && cleanList tl
  | .notE cs => cleanList cs

/-- All field values in each tree of the list are paren-free. -/
def cleanList : List FilterExpr → Bool
  | [] => true
  | c :: rest => cleanExpr c && cleanList rest

end

/-- The lexical pieces a compiled search string is built from: the six
keywords, parentheses, spaces, and double-quoted field values. -/
inductive QTok where
  | kwFROM
  | kwTO
  | kwCC
  | kwSUBJECT
  | kwOR
  | kwNOT
  | lpar
  | rpar
  | space
  | quoted (v : String)
deriving DecidableEq, Repr

/-- The literal text of one lexical piece. -/
def QTok.render : QTok → String
  | .kwFROM => "FROM"
  | .kwTO => "TO"
  | .kwCC => "CC"
  | .kwSUBJECT => "SUBJECT"
  | .kwOR => "OR"
  | .kwNOT => "NOT"
  | .lpar => "("
  | .rpar => ")"
  | .space => " "
  | .quoted v => "\"" ++ v ++ "\""

/-- Concatenation of the pieces. -/
def renderToks : List QTok → String
  | [] => ""
  | t :: rest => t.render ++ renderToks rest

/-- The keyword piece a field builder emits. -/
def Fld.tok : Fld → QTok
  | .fromF => QTok.kwFROM
  | .toF => QTok.kwTO
  | .ccF => QTok.kwCC
  | .subjF => QTok.kwSUBJECT

mutual

/-- The lexical decomposition of `compile`. -/
def toks : FilterExpr → List QTok
  | .field f v => [QTok.lpar, f.tok, QTok.space, QTok.quoted v, QTok.rpar]
  | .orE hd tl => orToks (toks hd) tl
  | .andE hd tl => andToks (toks hd) tl
  | .notE cs => [QTok.lpar, QTok.kwNOT, QTok.space] ++ spaceJoinToks cs ++ [QTok.rpar]

/-- The lexical decomposition of `orFold`. -/
def orToks : List QTok → List FilterExpr → List QTok
  | acc, [] => acc
  | acc, c :: rest =>
    orToks ([QTok.lpar, QTok.kwOR, QTok.space] ++ acc ++ [QTok.space] ++
      toks c ++ [QTok.rpar]) rest

/-- The lexical decomposition of `andFold`. -/
def andToks : List QTok → List FilterExpr → List QTok
  | acc, [] => acc
  | acc, c :: rest =>
    andToks ([QTok.lpar] ++ acc ++ [QTok.space] ++ toks c ++ [QTok.rpar]) rest

/-- The lexical decomposition of `spaceJoin`. -/
def spaceJoinToks : List FilterExpr → List QTok
  | [] => []
  | [c] => toks c
  | c :: rest => toks c ++ [QTok.space] ++ spaceJoinToks rest

end

/-- Whether a lexical piece is a keyword, and which. -/
def QTok.keywordStr : QTok → Option String
  | .kwFROM => some "FROM"
  | .kwTO => some "TO"
  | .kwCC => some "CC"
  | .kwSUBJECT => some "SUBJECT"
  | .kwOR => some "OR"
  | .kwNOT => some "NOT"
  | _ => none

/-! ## Concrete sample inputs used by witnesses and counterexamples -/

/-- A sample configuration. -/
def exampleCfg : Config where
  workForwardTo := "work@workplace.edu"
  workReplyFrom := "answermachine@example.com"
  workForwardBy := "forwarder@example.com"
  obnoxiousReplyFrom := "devnull@example.com"
  proxyStoreTo := "INBOX.Later"
  proxySendFrom := "proxy@example.com"
  kindleSendFrom := "kindle@example.com"
  kindleSendTo := "user@kindle.com"

/-- A sample parsed message carrying all three sender headers. -/
def exampleMail : EMail where
  messageId := some "<m1@example.com>"
  replyTo := some "replyto@example.com"
  fromAddr := some "from@example.com"
  senderAddr := some "sender@example.com"
  toAddr := some "txt@example.com"
  subject := some "hello"
  urls := ["http://a.example"]

/-! ## Dedup and content-handler claims -/

/-- C1: for each of the three content handlers, an item whose canonical
Message-ID is already in the working seen-set produces no events at all —
in particular zero outgoing sends — while an unseen item's Message-ID is
added to the returned seen-set; the returned set is moreover independent
of every send/fetch outcome, so the identifier is recorded even when the
outgoing sends themselves fail. -/
theorem content_handlers_at_most_once (cfg : Config)
    (sendOk sendOk' : Nat → Bool)
    (fetchOk smtpOk fetchOk' smtpOk' : String → Bool)
    (k : Nat) (m : EMail) (seen : IdSet) :
    (m.messageId ∈ seen →
      (workEmailItem cfg sendOk k m seen).2.1 = [] ∧
      (obnoxiousItem cfg sendOk k m seen).2.1 = [] ∧
      (proxy_process_email cfg fetchOk smtpOk (some m) seen).2 = []) ∧
    (m.messageId ∉ seen →
      (workEmailItem cfg sendOk k m seen).1 = insert m.messageId seen ∧
      (obnoxiousItem cfg sendOk k m seen).1 = insert m.messageId seen ∧
      (proxy_process_email cfg fetchOk smtpOk (some m) seen).1 =
        insert m.messageId seen) ∧
    (workEmailItem cfg sendOk k m seen).1 =
      (workEmailItem cfg sendOk' k m seen).1 ∧
    (obnoxiousItem cfg sendOk k m seen).1 =
      (obnoxiousItem cfg sendOk' k m seen).1 ∧
    (proxy_process_email cfg fetchOk smtpOk (some m) seen).1 =
      (proxy_process_email cfg fetchOk' smtpOk' (some m) seen).1 := by
  unfold workEmailItem obnoxiousItem proxy_process_email should_process_message
  by_cases h : m.messageId ∈ seen <;> simp [h]

/-- C1 witness: the unseen branch at a concrete input, with every send
failing. -/
theorem content_handlers_at_most_once_witness :
    (workEmailItem exampleCfg (fun _ => false) 0 exampleMail ∅).1 =
      insert exampleMail.messageId ∅ ∧
    (obnoxiousItem exampleCfg (fun _ => false) 0 exampleMail ∅).1 =
      insert exampleMail.messageId ∅ ∧
    (proxy_process_email exampleCfg (fun _ => false) (fun _ => false)
      (some exampleMail) ∅).1 = insert exampleMail.messageId ∅ :=
  (content_handlers_at_most_once exampleCfg (fun _ => false) (fun _ => false)
    (fun _ => false) (fun _ => false) (fun _ => false) (fun _ => false)
    0 exampleMail ∅).2.1 (by decide)

/-- C4: an unseen AutoForwardReply item produces exactly two send events,
the forward (`work_forward_by → work_forward_to`) strictly before the
reply (`work_reply_from → resolved sender`), whatever the outcome of each
attempt — both attempts occur even when the forward fails, its exception
being caught — and the reply recipient is the Reply-To header when it is
present (truthy), else the From header. -/
theorem autoForwardReply_two_sends (cfg : Config) (sendOk : Nat → Bool)
    (k : Nat) (m : EMail) (seen : IdSet) (h : m.messageId ∉ seen) :
    (workEmailItem cfg sendOk k m seen).2.1 =
      [Event.send cfg.workForwardBy (some cfg.workForwardTo) (sendOk k),
       Event.send cfg.workReplyFrom
         (pyOr m.replyTo (pyOr m.fromAddr m.senderAddr)) (sendOk (k + 1))] ∧
    (pyTruthy m.replyTo = true →
      pyOr m.replyTo (pyOr m.fromAddr m.senderAddr) = m.replyTo) ∧
    (pyTruthy m.replyTo = false → pyTruthy m.fromAddr = true →
      pyOr m.replyTo (pyOr m.fromAddr m.senderAddr) = m.fromAddr) := by
  refine ⟨?_, ?_, ?_⟩
  · unfold workEmailItem should_process_message
    simp [h]
  · intro hr; simp [pyOr, hr]
  · intro hr hf; simp [pyOr, hr, hf]

/-- C4 witness: concrete input where the forward attempt fails and the
reply is still attempted, two sends in order. -/
theorem autoForwardReply_two_sends_witness :
    (workEmailItem exampleCfg (fun i => decide (i ≠ 0)) 0 exampleMail ∅).2.1 =
      [Event.send exampleCfg.workForwardBy (some exampleCfg.workForwardTo)
         (decide ((0 : Nat) ≠ 0)),
       Event.send exampleCfg.workReplyFrom
         (pyOr exampleMail.replyTo
           (pyOr exampleMail.fromAddr exampleMail.senderAddr))
         (decide ((1 : Nat) ≠ 0))] ∧
    (pyTruthy exampleMail.replyTo = true →
      pyOr exampleMail.replyTo
        (pyOr exampleMail.fromAddr exampleMail.senderAddr) =
        exampleMail.replyTo) ∧
    (pyTruthy exampleMail.replyTo = false →
      pyTruthy exampleMail.fromAddr = true →
      pyOr exampleMail.replyTo
        (pyOr exampleMail.fromAddr exampleMail.senderAddr) =
        exampleMail.fromAddr) :=
  autoForwardReply_two_sends exampleCfg (fun i => decide (i ≠ 0)) 0
    exampleMail ∅ (by decide)

/-- The per-item body of the RejectAndDelete handler produces either no
event or a single outgoing send. -/
theorem obnoxiousItem_events (cfg : Config) (sendOk : Nat → Bool) (k : Nat)
    (m : EMail) (seen : IdSet) :
    (obnoxiousItem cfg sendOk k m seen).2.1 = [] ∨
    (obnoxiousItem cfg sendOk k m seen).2.1 =
      [Event.send cfg.obnoxiousReplyFrom
        (pyOr m.replyTo (pyOr m.fromAddr m.senderAddr)) (sendOk k)] := by
  unfold obnoxiousItem should_process_message
  by_cases hm : m.messageId ∈ seen <;> simp [hm]

/-- Every event produced by the per-item loop of the RejectAndDelete
handler is an outgoing send. -/
theorem obnoxiousItems_only_sends (cfg : Config) (sendOk : Nat → Bool) :
    ∀ (items : List (Option EMail)) (k : Nat) (seen : IdSet),
      ∀ e ∈ (obnoxiousItems cfg sendOk items k seen).2.1,
        ∃ f t ok, e = Event.send f t ok := by
  intro items
  induction items with
  | nil => intro k seen e he; simp [obnoxiousItems] at he
  | cons item rest ih =>
    intro k seen e he
    match item with
    | none => exact ih k seen e he
    | some m =>
      have hcons : (obnoxiousItems cfg sendOk (some m :: rest) k seen).2.1 =
          (obnoxiousItem cfg sendOk k m seen).2.1 ++
            (obnoxiousItems cfg sendOk rest
              (obnoxiousItem cfg sendOk k m seen).2.2
              (obnoxiousItem cfg sendOk k m seen).1).2.1 := rfl
      rw [hcons, List.mem_append] at he
      rcases he with he | he
      · rcases obnoxiousItem_events cfg sendOk k m seen with h0 | h0 <;>
          rw [h0] at he
        · simp at he
        · simp at he
          exact ⟨_, _, _, he⟩
      · exact ih _ _ e he

/-- C5: every invocation of the RejectAndDelete handler records the FETCH,
then the delete of the entire matched uid set, then the expunge, and every
later event is an outgoing send — the delete+expunge pair precedes every
send, whatever the items, the dedup state and the send outcomes. -/
theorem rejectAndDelete_delete_before_sends (cfg : Config)
    (sendOk : Nat → Bool) (uids : List String) (fetchRes : Status)
    (items : List (Option EMail)) (seen : IdSet) :
    ∃ rest,
      (obnoxiousHandler cfg sendOk uids fetchRes items seen).2.2 =
        Event.fetch uids :: Event.delete uids :: Event.expunge :: rest ∧
      ∀ e ∈ rest, ∃ f t ok, e = Event.send f t ok := by
  refine ⟨(obnoxiousItems cfg sendOk items 0 seen).2.1, ?_, ?_⟩
  · unfold obnoxiousHandler
    rfl
  · exact obnoxiousItems_only_sends cfg sendOk items 0 seen

/-- C6 fails on the code: FetchProxy resolves the outgoing recipient as
`From or Sender` (proxy_utils.py line 363), ignoring Reply-To. On
`exampleMail`, whose Reply-To header is present, AutoForwardReply replies
to the Reply-To address while FetchProxy stores to the From address. -/
theorem sender_precedence_counterexample :
    pyTruthy exampleMail.replyTo = true ∧
    (workEmailItem exampleCfg (fun _ => true) 0 exampleMail ∅).2.1.getLast? =
      some (Event.send exampleCfg.workReplyFrom
        (some "replyto@example.com") true) ∧
    (proxy_process_email exampleCfg (fun _ => true) (fun _ => true)
        (some exampleMail) ∅).2 =
      [Event.append "INBOX.Later" (some "from@example.com")] ∧
    (some "from@example.com" : Option String) ≠
      some "replyto@example.com" := by
  decide

/-- C6 amended: AutoForwardReply and RejectAndDelete resolve the reply
recipient by the common precedence `Reply-To or From or Sender`;
FetchProxy instead resolves `From or Sender`: its output is unchanged by
any Reply-To header, and for a non-kindle destination its outgoing
recipient is exactly `From or Sender`. -/
theorem sender_precedence_amended (cfg : Config) (sendOk : Nat → Bool)
    (k : Nat) (fetchOk smtpOk : String → Bool) (m : EMail) (seen : IdSet)
    (r : Option String) (h : m.messageId ∉ seen) :
    (workEmailItem cfg sendOk k m seen).2.1.getLast? =
      some (Event.send cfg.workReplyFrom
        (pyOr m.replyTo (pyOr m.fromAddr m.senderAddr)) (sendOk (k + 1))) ∧
    (obnoxiousItem cfg sendOk k m seen).2.1 =
      [Event.send cfg.obnoxiousReplyFrom
        (pyOr m.replyTo (pyOr m.fromAddr m.senderAddr)) (sendOk k)] ∧
    proxy_process_email cfg fetchOk smtpOk (some { m with replyTo := r }) seen =
      proxy_process_email cfg fetchOk smtpOk (some m) seen ∧
    (strContains (pyLower (m.toAddr.getD "")) "kindle" = false →
      (proxy_parse_options m.toAddr cfg (pyOr m.fromAddr m.senderAddr)).sendTo =
        pyOr m.fromAddr m.senderAddr) := by
  refine ⟨?_, ?_, ?_, ?_⟩
  · unfold workEmailItem should_process_message
    simp [h]
  · unfold obnoxiousItem should_process_message
    simp [h]
  · unfold proxy_process_email should_process_message
    simp
  · intro hk
    unfold proxy_parse_options
    simp [hk]

/-- C6 amended witness: the common precedence at a concrete unseen item. -/
theorem sender_precedence_amended_witness :
    (workEmailItem exampleCfg (fun _ => true) 0 exampleMail ∅).2.1.getLast? =
      some (Event.send exampleCfg.workReplyFrom
        (pyOr exampleMail.replyTo
          (pyOr exampleMail.fromAddr exampleMail.senderAddr)) true) ∧
    (obnoxiousItem exampleCfg (fun _ => true) 0 exampleMail ∅).2.1 =
      [Event.send exampleCfg.obnoxiousReplyFrom
        (pyOr exampleMail.replyTo
          (pyOr exampleMail.fromAddr exampleMail.senderAddr)) true] ∧
    proxy_process_email exampleCfg (fun _ => true) (fun _ => true)
        (some { exampleMail with replyTo := none }) ∅ =
      proxy_process_email exampleCfg (fun _ => true) (fun _ => true)
        (some exampleMail) ∅ ∧
    (strContains (pyLower (exampleMail.toAddr.getD "")) "kindle" = false →
      (proxy_parse_options exampleMail.toAddr exampleCfg
        (pyOr exampleMail.fromAddr exampleMail.senderAddr)).sendTo =
        pyOr exampleMail.fromAddr exampleMail.senderAddr) :=
  sender_precedence_amended exampleCfg (fun _ => true) 0 (fun _ => true)
    (fun _ => true) exampleMail ∅ none (by decide)

/-- C10: a message lacking a Message-ID header is processed normally the
first time and `none` is added to the seen-set; every later message that
also lacks a Message-ID while `none` stays in the window is classified as
already handled and produces no events. Holds for all three handlers. -/
theorem missing_message_id_collision (cfg : Config)
    (sendOk sendOk' : Nat → Bool) (fetchOk smtpOk : String → Bool)
    (k k' : Nat) (m1 m2 : EMail) (seen : IdSet)
    (h1 : m1.messageId = none) (h2 : m2.messageId = none)
    (h : none ∉ seen) :
    (workEmailItem cfg sendOk k m1 seen).1 = insert none seen ∧
    (workEmailItem cfg sendOk k m1 seen).2.1.length = 2 ∧
    (workEmailItem cfg sendOk' k' m2 (insert none seen)).2.1 = [] ∧
    (obnoxiousItem cfg sendOk k m1 seen).1 = insert none seen ∧
    (obnoxiousItem cfg sendOk' k' m2 (insert none seen)).2.1 = [] ∧
    (proxy_process_email cfg fetchOk smtpOk (some m1) seen).1 =
      insert none seen ∧
    (proxy_process_email cfg fetchOk smtpOk (some m2) (insert none seen)).2 =
      [] := by
  unfold workEmailItem obnoxiousItem proxy_process_email should_process_message
  simp [h1, h2, h]

/-- C10 witness: two concrete id-less messages. -/
theorem missing_message_id_collision_witness :
    (workEmailItem exampleCfg (fun _ => true) 0
      { exampleMail with messageId := none } ∅).1 = insert none ∅ ∧
    (workEmailItem exampleCfg (fun _ => true) 0
      { exampleMail with messageId := none } ∅).2.1.length = 2 ∧
    (workEmailItem exampleCfg (fun _ => true) 0
      { exampleMail with messageId := none, subject := some "other" }
      (insert none ∅)).2.1 = [] ∧
    (obnoxiousItem exampleCfg (fun _ => true) 0
      { exampleMail with messageId := none } ∅).1 = insert none ∅ ∧
    (obnoxiousItem exampleCfg (fun _ => true) 0
      { exampleMail with messageId := none, subject := some "other" }
      (insert none ∅)).2.1 = [] ∧
    (proxy_process_email exampleCfg (fun _ => true) (fun _ => true)
      (some { exampleMail with messageId := none }) ∅).1 = insert none ∅ ∧
    (proxy_process_email exampleCfg (fun _ => true) (fun _ => true)
      (some { exampleMail with messageId := none, subject := some "other" })
      (insert none ∅)).2 = [] :=
  missing_message_id_collision exampleCfg (fun _ => true) (fun _ => true)
    (fun _ => true) (fun _ => true) 0 0
    { exampleMail with messageId := none }
    { exampleMail with messageId := none, subject := some "other" }
    ∅ rfl rfl (by decide)

/-! ## Event-loop claims -/

/-- A pipeline started with a non-`"OK"` status runs no handler. -/
theorem runPipeline_notOK (uids : List String) :
    ∀ (hs : List RH) (st : Status) (seen : IdSet), st ≠ "OK" →
      runPipeline uids hs st seen = (st, seen, 0) := by
  intro hs st seen h
  cases hs with
  | nil => rfl
  | cons g rest =>
    unfold runPipeline
    rw [if_neg h]

/-- When a rule's search succeeded on a non-empty uid set, its pipeline
receives exactly `processed ∪ previous` and the rule leaves behind the
pipeline's final set minus `previous`. -/
theorem runRule_exec (previous processed : IdSet) (r : RuleRun)
    (hs : r.searchRes = "OK") (hu : r.uids.length > 0) :
    runRule previous processed r =
      ((runPipeline r.uids r.pipeline "OK" (processed ∪ previous)).1,
       (runPipeline r.uids r.pipeline "OK" (processed ∪ previous)).2.1 \
         previous,
       (runPipeline r.uids r.pipeline "OK" (processed ∪ previous)).2.2) := by
  unfold runRule
  rw [hs]
  simp [hu]

/-- A rule keeps the carried set disjoint from `previous`. -/
theorem runRule_disjoint (previous processed : IdSet) (r : RuleRun)
    (h : processed ∩ previous = ∅) :
    (runRule previous processed r).2.1 ∩ previous = ∅ := by
  unfold runRule
  split
  · split
    · exact Finset.sdiff_inter_self _ _
    · exact h
  · exact h

/-- A whole pass keeps the carried set disjoint from `previous`. -/
theorem runRules_disjoint (previous : IdSet) :
    ∀ (rules : List RuleRun) (processed : IdSet) (res : Status),
      processed ∩ previous = ∅ →
      (runRules previous rules processed res).2.1 ∩ previous = ∅ := by
  intro rules
  induction rules with
  | nil => intro processed res h; exact h
  | cons r rest ih =>
    intro processed res h
    exact ih _ _ (runRule_disjoint previous processed r h)

/-- The set a wake-up carries into the next wake-up is disjoint from the
set inherited from the preceding wake-up. -/
theorem runWakeup_disjoint (rules : List RuleRun) (prev : IdSet) :
    (runWakeup rules prev).2.1 ∩ prev = ∅ :=
  runRules_disjoint prev rules ∅ "OK" (by simp)

/-- The first trace entry of the loop, if any, uses the current
`processed` set as its `previous` generation. -/
theorem runQueriesLoop_head_prev :
    ∀ (envs : List WakeEnv) (res : Status) (resp : Bool)
      (processed previous : IdSet) (x : List RuleRun × IdSet × IdSet),
      (runQueriesLoop envs res resp processed previous).head? = some x →
      x.2.1 = processed := by
  intro envs
  induction envs with
  | nil => intro res resp p q x hx; simp [runQueriesLoop] at hx
  | cons env rest ih =>
    intro res resp p q x hx
    unfold runQueriesLoop at hx
    by_cases hres : res = "OK"
    · rw [if_pos hres] at hx
      by_cases hresp : resp = true
      · rw [if_pos hresp] at hx
        simp only [List.head?_cons, Option.some.injEq] at hx
        rw [← hx]
      · rw [if_neg hresp] at hx
        exact ih _ _ _ _ _ hx
    · rw [if_neg hres] at hx
      simp at hx

/-- Prepending an entry preserves chaining when the entry's final set is
the head's `previous`. -/
theorem chainedTrace_cons (a : List RuleRun × IdSet × IdSet)
    (l : List (List RuleRun × IdSet × IdSet))
    (h1 : ∀ x, l.head? = some x → a.2.2 = x.2.1) (h2 : chainedTrace l) :
    chainedTrace (a :: l) := by
  cases l with
  | nil => trivial
  | cons b t => exact ⟨h1 b rfl, h2⟩

/-- Every trace of the loop is chained: each wake-up's final `processed`
set is the next wake-up's `previous` generation. -/
theorem runQueriesLoop_chained :
    ∀ (envs : List WakeEnv) (res : Status) (resp : Bool)
      (processed previous : IdSet),
      chainedTrace (runQueriesLoop envs res resp processed previous) := by
  intro envs
  induction envs with
  | nil => intro res resp p q; trivial
  | cons env rest ih =>
    intro res resp p q
    unfold runQueriesLoop
    by_cases hres : res = "OK"
    · rw [if_pos hres]
      by_cases hresp : resp = true
      · rw [if_pos hresp]
        refine chainedTrace_cons _ _ ?_ (ih _ _ _ _)
        intro x hx
        exact (runQueriesLoop_head_prev rest _ _ _ _ x hx).symm
      · rw [if_neg hresp]
        exact ih _ _ _ _
    · rw [if_neg hres]
      trivial

/-- Every executed wake-up recorded in the trace computed its final
`processed` set by a pass that starts from an empty current generation. -/
theorem runQueriesLoop_entries :
    ∀ (envs : List WakeEnv) (res : Status) (resp : Bool)
      (processed previous : IdSet),
      ∀ e ∈ runQueriesLoop envs res resp processed previous,
        e.2.2 = (runRules e.2.1 e.1 ∅ "OK").2.1 := by
  intro envs
  induction envs with
  | nil => intro res resp p q e he; simp [runQueriesLoop] at he
  | cons env rest ih =>
    intro res resp p q e he
    unfold runQueriesLoop at he
    by_cases hres : res = "OK"
    · rw [if_pos hres] at he
      by_cases hresp : resp = true
      · rw [if_pos hresp] at he
        rcases List.mem_cons.mp he with h0 | h0
        · rw [h0]
          rfl
        · exact ih _ _ _ _ e h0
      · rw [if_neg hresp] at he
        exact ih _ _ _ _ e he
    · rw [if_neg hres] at he
      simp at he

/-- C2: per wake-up the current generation starts empty (a wake-up is the
pass `runRules prev rules ∅ "OK"`, as every trace entry records), the
previous wake-up's final set is the next wake-up's `previous` generation
(the trace is chained), a rule whose search succeeded on a non-empty
result runs its pipeline on `processed ∪ previous` and restores
`processed := final \ previous` afterwards, and the set carried out of a
wake-up is disjoint from its `previous` generation — only
new-this-wake-up identifiers survive. -/
theorem dedup_window_generations (envs : List WakeEnv)
    (rules : List RuleRun) (prev processed : IdSet) (r : RuleRun)
    (hs : r.searchRes = "OK") (hu : r.uids.length > 0) :
    (∀ (rls : List RuleRun) (p : IdSet),
      runWakeup rls p = runRules p rls ∅ "OK") ∧
    chainedTrace (runQueriesTrace envs) ∧
    (∀ e ∈ runQueriesTrace envs, e.2.2 = (runRules e.2.1 e.1 ∅ "OK").2.1) ∧
    runRule prev processed r =
      ((runPipeline r.uids r.pipeline "OK" (processed ∪ prev)).1,
       (runPipeline r.uids r.pipeline "OK" (processed ∪ prev)).2.1 \ prev,
       (runPipeline r.uids r.pipeline "OK" (processed ∪ prev)).2.2) ∧
    (runWakeup rules prev).2.1 ∩ prev = ∅ :=
  ⟨fun _ _ => rfl,
   runQueriesLoop_chained envs "OK" true ∅ ∅,
   runQueriesLoop_entries envs "OK" true ∅ ∅,
   runRule_exec prev processed r hs hu,
   runWakeup_disjoint rules prev⟩

/-- C2 witness: the generation invariants at a concrete two-wake-up
script whose single rule records one identifier. -/
theorem dedup_window_generations_witness :
    (∀ (rls : List RuleRun) (p : IdSet),
      runWakeup rls p = runRules p rls ∅ "OK") ∧
    chainedTrace (runQueriesTrace
      [⟨[⟨"OK", ["1"], [fun _ s => ("OK", insert (some "<w>") s)]⟩],
        "OK", true⟩,
       ⟨[⟨"OK", ["1"], [fun _ s => ("OK", insert (some "<w>") s)]⟩],
        "OK", true⟩]) ∧
    (∀ e ∈ runQueriesTrace
      [⟨[⟨"OK", ["1"], [fun _ s => ("OK", insert (some "<w>") s)]⟩],
        "OK", true⟩,
       ⟨[⟨"OK", ["1"], [fun _ s => ("OK", insert (some "<w>") s)]⟩],
        "OK", true⟩], e.2.2 = (runRules e.2.1 e.1 ∅ "OK").2.1) ∧
    runRule ∅ ∅ ⟨"OK", ["1"], []⟩ =
      ((runPipeline ["1"] [] "OK" ((∅ : IdSet) ∪ ∅)).1,
       (runPipeline ["1"] [] "OK" ((∅ : IdSet) ∪ ∅)).2.1 \ ∅,
       (runPipeline ["1"] [] "OK" ((∅ : IdSet) ∪ ∅)).2.2) ∧
    (runWakeup [⟨"OK", ["1"], []⟩] ∅).2.1 ∩ ∅ = ∅ :=
  dedup_window_generations
    [⟨[⟨"OK", ["1"], [fun _ s => ("OK", insert (some "<w>") s)]⟩],
      "OK", true⟩,
     ⟨[⟨"OK", ["1"], [fun _ s => ("OK", insert (some "<w>") s)]⟩],
      "OK", true⟩]
    [⟨"OK", ["1"], []⟩] ∅ ∅ ⟨"OK", ["1"], []⟩ rfl (by decide)

/-- The concrete rule table refuting C3: rule 1's search returns `"NO"`,
rule 2's search returns `"OK"` with one uid and a handler that records
one identifier. -/
def cexRules : List RuleRun :=
  [⟨"NO", ["1"], [fun _ s => ("OK", s)]⟩,
   ⟨"OK", ["2"], [fun _ s => ("OK", insert (some "x") s)]⟩]

/-- C3 fails on the code: after rule 1's search returns a non-OK status,
the wake-up is not aborted — rule 2 is still searched and its handler
runs (handler invocation counts `[0, 1]`) and records its identifier. -/
theorem search_failure_counterexample :
    (runWakeup cexRules ∅).2.2 = [0, 1] ∧
    (runWakeup cexRules ∅).2.1 = {some "x"} := by
  decide

/-- C3 amended: a rule whose search returns a non-OK status runs zero of
its handlers and leaves `processed` unchanged, while the pass continues
with the later rules exactly as it would have; the outcome of one rule
never gates the next rule's search; a pipeline reached with a non-OK
status runs no step, and a handler step returning a non-OK status aborts
the remaining steps of that pipeline (exactly one invocation happens). -/
theorem search_failure_skips_only_rule (previous processed seen : IdSet)
    (r : RuleRun) (rest : List RuleRun) (res : Status)
    (uids : List String) (g : RH) (tl : List RH) (st : Status)
    (hs : r.searchRes ≠ "OK") (hst : st ≠ "OK")
    (hg : (g uids seen).1 ≠ "OK") :
    runRules previous (r :: rest) processed res =
      ((runRules previous rest processed r.searchRes).1,
       (runRules previous rest processed r.searchRes).2.1,
       0 :: (runRules previous rest processed r.searchRes).2.2) ∧
    (∀ (x : RuleRun) (xs : List RuleRun) (res1 res2 : Status),
      runRules previous (x :: xs) processed res1 =
        runRules previous (x :: xs) processed res2) ∧
    runPipeline uids tl st seen = (st, seen, 0) ∧
    runPipeline uids (g :: tl) "OK" seen =
      ((g uids seen).1, (g uids seen).2, 1) := by
  refine ⟨?_, fun x xs res1 res2 => rfl, runPipeline_notOK uids tl st seen hst, ?_⟩
  · have ha : runRule previous processed r = (r.searchRes, processed, 0) := by
      unfold runRule
      rw [if_neg hs]
    conv_lhs => rw [runRules]
    rw [ha]
  · unfold runPipeline
    rw [if_pos rfl]
    show ((runPipeline uids tl (g uids seen).1 (g uids seen).2).1,
          (runPipeline uids tl (g uids seen).1 (g uids seen).2).2.1,
          (runPipeline uids tl (g uids seen).1 (g uids seen).2).2.2 + 1) =
        ((g uids seen).1, (g uids seen).2, 1)
    rw [runPipeline_notOK uids tl _ _ hg]

/-- C3 amended witness: the skip-and-continue behaviour at the concrete
refuting table. -/
theorem search_failure_skips_only_rule_witness :
    runRules ∅ cexRules ∅ "OK" =
      ((runRules ∅ [⟨"OK", ["2"],
          [fun _ s => ("OK", insert (some "x") s)]⟩] ∅ "NO").1,
       (runRules ∅ [⟨"OK", ["2"],
          [fun _ s => ("OK", insert (some "x") s)]⟩] ∅ "NO").2.1,
       0 :: (runRules ∅ [⟨"OK", ["2"],
          [fun _ s => ("OK", insert (some "x") s)]⟩] ∅ "NO").2.2) ∧
    (∀ (x : RuleRun) (xs : List RuleRun) (res1 res2 : Status),
      runRules ∅ (x :: xs) ∅ res1 = runRules ∅ (x :: xs) ∅ res2) ∧
    runPipeline ["9"] [fun _ s => ("OK", s)] "NO" ∅ = ("NO", ∅, 0) ∧
    runPipeline ["9"] ((fun _ s => ("BAD", s)) :: [fun _ s => ("OK", s)])
        "OK" ∅ =
      (((fun (_ : List String) (s : IdSet) => (("BAD" : Status), s)) ["9"] ∅).1,
       ((fun (_ : List String) (s : IdSet) => (("BAD" : Status), s)) ["9"] ∅).2,
       1) := by
  have h := search_failure_skips_only_rule ∅ ∅ ∅
    ⟨"NO", ["1"], [fun _ s => ("OK", s)]⟩
    [⟨"OK", ["2"], [fun _ s => ("OK", insert (some "x") s)]⟩] "OK" ["9"]
    (fun _ s => ("BAD", s)) [fun _ s => ("OK", s)] "NO"
    (by decide) (by decide) (by decide)
  exact h

/-! ## Connection-supervisor claims -/

/-- C7 fails on the code in daemon mode: the missing-capability error is
an `imaplib.IMAP4.error`, which `run` catches in its generic
`except Exception` branch and retries with backoff — here a 60-second
sleep followed by a doubled delay — instead of never retrying. -/
theorem fatal_config_retried_counterexample :
    idleCapabilityCheck [] = Except.error PyExc.imapError ∧
    run false 60 3600 [SessionOutcome.exc PyExc.imapError] 60 =
      ([60], RunExit.stillRunning 120) ∧
    RunExit.stillRunning 120 ≠ RunExit.raised PyExc.imapError :=
  ⟨rfl, by decide, by decide⟩

/-- C7 amended: the capability check raises immediately exactly when the
IDLE capability is missing; in single-pass mode `run` propagates the
resulting error to the caller with no retry sleep; in daemon mode the
error is caught by the generic handler and retried with backoff like any
other unexpected error. -/
theorem fatal_config_check_behaviour (caps : List String) (d M D : Nat)
    (rest : List SessionOutcome) :
    ("IDLE" ∉ caps ↔
      idleCapabilityCheck caps = Except.error PyExc.imapError) ∧
    run true d M (SessionOutcome.exc PyExc.imapError :: rest) D =
      ([], RunExit.raised PyExc.imapError) ∧
    run false d M (SessionOutcome.exc PyExc.imapError :: rest) D =
      (D :: (run false d M rest (min (D * 2) M)).1,
       (run false d M rest (min (D * 2) M)).2) := by
  refine ⟨⟨?_, ?_⟩, rfl, rfl⟩
  · intro h
    unfold idleCapabilityCheck
    rw [if_neg h]
  · intro h hmem
    unfold idleCapabilityCheck at h
    rw [if_pos hmem] at h
    exact Except.noConfusion h

/-- C8: three consecutive transport errors starting from the configured
initial delay `d ≤ M` produce exactly the sleep sequence
`d, min(2d, M), min(4d, M)` — doubling capped at the maximum, with `d`
itself within the cap since `min d M = d` — leaving the next retry delay
at `min(8d, M)`; after a successful session in daemon mode the delay
resets to the initial value; in single-pass mode any session error is
propagated to the caller with no sleep. -/
theorem backoff_schedule (d M D : Nat) (hdM : d ≤ M)
    (e1 e2 e3 e : PyExc) (rest : List SessionOutcome)
    (h1 : e1.isTransport = true) (h2 : e2.isTransport = true)
    (h3 : e3.isTransport = true) :
    run false d M
        [SessionOutcome.exc e1, SessionOutcome.exc e2,
         SessionOutcome.exc e3] d =
      ([d, min (2 * d) M, min (4 * d) M],
       RunExit.stillRunning (min (8 * d) M)) ∧
    min d M = d ∧
    run false d M (SessionOutcome.ok :: rest) D = run false d M rest d ∧
    run true d M (SessionOutcome.exc e :: rest) D =
      ([], RunExit.raised e) := by
  refine ⟨?_, by omega, rfl, ?_⟩
  · simp [run, h1, h2, h3]
    omega
  · cases e <;> rfl

/-- C8 witness: the concrete schedule 60, 120, 240 with a 3600-second cap,
the reset after a success, and the single-pass propagation. -/
theorem backoff_schedule_witness :
    (60 : Nat) ≤ 3600 ∧
    (run false 60 3600
        [SessionOutcome.exc PyExc.socketError,
         SessionOutcome.exc PyExc.socketError,
         SessionOutcome.exc PyExc.imapAbort] 60 =
      ([60, min (2 * 60) 3600, min (4 * 60) 3600],
       RunExit.stillRunning (min (8 * 60) 3600)) ∧
    min 60 3600 = 60 ∧
    run false 60 3600 (SessionOutcome.ok :: []) 999 = run false 60 3600 [] 60 ∧
    run true 60 3600 (SessionOutcome.exc PyExc.imapAbort :: []) 999 =
      ([], RunExit.raised PyExc.imapAbort)) :=
  ⟨by decide,
   backoff_schedule 60 3600 999 (by decide) PyExc.socketError
     PyExc.socketError PyExc.imapAbort PyExc.imapAbort [] rfl rfl rfl⟩

/-! ## Query-compiler claims -/

/-- The paren scan of a concatenation is the composition of the scans. -/
theorem parenScan_append (a b : List Char) :
    ∀ n, parenScan (a ++ b) n = (parenScan a n).bind fun m => parenScan b m := by
  induction a with
  | nil => intro n; rfl
  | cons c rest ih =>
    intro n
    by_cases h1 : c = '('
    · simp [parenScan, h1, ih]
    · by_cases h2 : c = ')'
      · cases n with
        | zero => simp [parenScan, h1, h2]
        | succ m => simp [parenScan, h1, h2, ih]
      · simp [parenScan, h1, h2, ih]

/-- Characters that are not parentheses leave the scan depth unchanged. -/
theorem parenScan_clean_chars :
    ∀ (l : List Char),
      l.all (fun c => !(c = '(') && !(c = ')')) = true →
      ∀ n, parenScan l n = some n := by
  intro l
  induction l with
  | nil => intro _ n; rfl
  | cons c rest ih =>
    intro h n
    rw [List.all_cons, Bool.and_eq_true] at h
    rcases h with ⟨hc, hrest⟩
    rw [Bool.and_eq_true] at hc
    have h1 : ¬(c = '(') := by simpa using hc.1
    have h2 : ¬(c = ')') := by simpa using hc.2
    simp [parenScan, h1, h2, ih hrest]

/-- Keyword strings contain no parentheses. -/
theorem parenScan_keyword (f : Fld) :
    ∀ n, parenScan (Fld.keyword f).data n = some n := by
  cases f <;> intro n <;> rfl

/-- The `or_combine` fold preserves a depth-neutral accumulator when the
children are paren-clean. -/
theorem orFold_scan :
    ∀ (tl : List FilterExpr),
      (∀ c ∈ tl, cleanExpr c = true →
        ∀ n, parenScan (compile c).data n = some n) →
      cleanList tl = true →
      ∀ (acc : String), (∀ n, parenScan acc.data n = some n) →
      ∀ n, parenScan (orFold acc tl).data n = some n := by
  intro tl
  induction tl with
  | nil => intro _ _ acc hacc n; exact hacc n
  | cons c rest ih =>
    intro IH hcl acc hacc n
    rw [cleanList, Bool.and_eq_true] at hcl
    rw [show orFold acc (c :: rest) =
          orFold ("(OR " ++ acc ++ " " ++ compile c ++ ")") rest from rfl]
    refine ih (fun x hx hex => IH x (List.mem_cons_of_mem _ hx) hex) hcl.2 _ ?_ n
    intro m
    have hc := IH c (List.mem_cons_self c rest) hcl.1
    have e1 : ("(OR " ++ acc ++ " " ++ compile c ++ ")").data =
        '(' :: 'O' :: 'R' :: ' ' ::
          (acc.data ++ ' ' :: ((compile c).data ++ [')'])) := by
      simp [String.data_append]
    rw [e1]
    rw [show parenScan ('(' :: 'O' :: 'R' :: ' ' ::
            (acc.data ++ ' ' :: ((compile c).data ++ [')']))) m =
          parenScan (acc.data ++ ' ' :: ((compile c).data ++ [')'])) (m + 1)
        from rfl]
    rw [parenScan_append, hacc]
    show parenScan (' ' :: ((compile c).data ++ [')'])) (m + 1) = some m
    rw [show parenScan (' ' :: ((compile c).data ++ [')'])) (m + 1) =
          parenScan ((compile c).data ++ [')']) (m + 1) from rfl]
    rw [parenScan_append, hc]
    rfl

/-- The `and_combine` fold preserves a depth-neutral accumulator when the
children are paren-clean. -/
theorem andFold_scan :
    ∀ (tl : List FilterExpr),
      (∀ c ∈ tl, cleanExpr c = true →
        ∀ n, parenScan (compile c).data n = some n) →
      cleanList tl = true →
      ∀ (acc : String), (∀ n, parenScan acc.data n = some n) →
      ∀ n, parenScan (andFold acc tl).data n = some n := by
  intro tl
  induction tl with
  | nil => intro _ _ acc hacc n; exact hacc n
  | cons c rest ih =>
    intro IH hcl acc hacc n
    rw [cleanList, Bool.and_eq_true] at hcl
    rw [show andFold acc (c :: rest) =
          andFold ("(" ++ acc ++ " " ++ compile c ++ ")") rest from rfl]
    refine ih (fun x hx hex => IH x (List.mem_cons_of_mem _ hx) hex) hcl.2 _ ?_ n
    intro m
    have hc := IH c (List.mem_cons_self c rest) hcl.1
    have e1 : ("(" ++ acc ++ " " ++ compile c ++ ")").data =
        '(' :: (acc.data ++ ' ' :: ((compile c).data ++ [')'])) := by
      simp [String.data_append]
    rw [e1]
    rw [show parenScan
          ('(' :: (acc.data ++ ' ' :: ((compile c).data ++ [')']))) m =
        parenScan (acc.data ++ ' ' :: ((compile c).data ++ [')'])) (m + 1)
        from rfl]
    rw [parenScan_append, hacc]
    show parenScan (' ' :: ((compile c).data ++ [')'])) (m + 1) = some m
    rw [show parenScan (' ' :: ((compile c).data ++ [')'])) (m + 1) =
          parenScan ((compile c).data ++ [')']) (m + 1) from rfl]
    rw [parenScan_append, hc]
    rfl

/-- The space-joined children of `not_combine` are depth-neutral when
paren-clean. -/
theorem spaceJoin_scan :
    ∀ (cs : List FilterExpr),
      (∀ c ∈ cs, cleanExpr c = true →
        ∀ n, parenScan (compile c).data n = some n) →
      cleanList cs = true →
      ∀ n, parenScan (spaceJoin cs).data n = some n := by
  intro cs
  induction cs with
  | nil => intro _ _ n; rfl
  | cons c rest ih =>
    intro IH hcl n
    rw [cleanList, Bool.and_eq_true] at hcl
    have hc := IH c (List.mem_cons_self c rest) hcl.1
    cases rest with
    | nil => exact hc n
    | cons d ds =>
      have e1 : (compile c ++ " " ++ spaceJoin (d :: ds)).data =
          (compile c).data ++ ' ' :: (spaceJoin (d :: ds)).data := by
        simp [String.data_append]
      rw [show spaceJoin (c :: d :: ds) =
            compile c ++ " " ++ spaceJoin (d :: ds) from rfl, e1,
          parenScan_append, hc]
      show parenScan (' ' :: (spaceJoin (d :: ds)).data) n = some n
      rw [show parenScan (' ' :: (spaceJoin (d :: ds)).data) n =
            parenScan (spaceJoin (d :: ds)).data n from rfl]
      exact ih (fun x hx hex => IH x (List.mem_cons_of_mem _ hx) hex) hcl.2 n

/-- Every filter expression has positive size. -/
theorem FilterExpr_sizeOf_pos (e : FilterExpr) : 0 < sizeOf e := by
  cases e <;> simp_arith

/-- The compiled string of a paren-clean tree is depth-neutral for the
paren scan. -/
theorem compile_scan_bounded :
    ∀ (N : Nat) (e : FilterExpr), sizeOf e ≤ N → cleanExpr e = true →
      ∀ n, parenScan (compile e).data n = some n := by
  intro N
  induction N with
  | zero =>
    intro e he _ n
    have := FilterExpr_sizeOf_pos e
    omega
  | succ N ih =>
    intro e he hc n
    cases e with
    | field f v =>
      have hv : ∀ j, parenScan v.data j = some j :=
        parenScan_clean_chars v.data hc
      have e1 : ("(" ++ f.keyword ++ " \"" ++ v ++ "\")").data =
          '(' :: ((Fld.keyword f).data ++
            ' ' :: '"' :: (v.data ++ ['"', ')'])) := by
        simp [String.data_append]
      rw [show compile (.field f v) = "(" ++ f.keyword ++ " \"" ++ v ++ "\")"
            from rfl, e1]
      rw [show parenScan ('(' :: ((Fld.keyword f).data ++
              ' ' :: '"' :: (v.data ++ ['"', ')']))) n =
            parenScan ((Fld.keyword f).data ++
              ' ' :: '"' :: (v.data ++ ['"', ')'])) (n + 1) from rfl]
      rw [parenScan_append, parenScan_keyword f]
      show parenScan (' ' :: '"' :: (v.data ++ ['"', ')'])) (n + 1) = some n
      rw [show parenScan (' ' :: '"' :: (v.data ++ ['"', ')'])) (n + 1) =
            parenScan (v.data ++ ['"', ')']) (n + 1) from rfl]
      rw [parenScan_append, hv]
      rfl
    | orE hd tl =>
      have hc' : cleanExpr hd = true ∧ cleanList tl = true := by
        rw [← Bool.and_eq_true]
        exact hc
      have hsz : 1 + sizeOf hd + sizeOf tl ≤ N + 1 := by
        have h0 : sizeOf (FilterExpr.orE hd tl) =
            1 + sizeOf hd + sizeOf tl := by simp
        omega
      have hhd : sizeOf hd ≤ N := by
        have := FilterExpr_sizeOf_pos hd
        omega
      exact orFold_scan tl
        (fun c hcm hcc n' =>
          ih c (by have := List.sizeOf_lt_of_mem hcm; omega) hcc n')
        hc'.2 (compile hd) (ih hd hhd hc'.1) n
    | andE hd tl =>
      have hc' : cleanExpr hd = true ∧ cleanList tl = true := by
        rw [← Bool.and_eq_true]
        exact hc
      have hsz : 1 + sizeOf hd + sizeOf tl ≤ N + 1 := by
        have h0 : sizeOf (FilterExpr.andE hd tl) =
            1 + sizeOf hd + sizeOf tl := by simp
        omega
      have hhd : sizeOf hd ≤ N := by
        have := FilterExpr_sizeOf_pos hd
        omega
      exact andFold_scan tl
        (fun c hcm hcc n' =>
          ih c (by have := List.sizeOf_lt_of_mem hcm; omega) hcc n')
        hc'.2 (compile hd) (ih hd hhd hc'.1) n
    | notE cs =>
      have hsz : 1 + sizeOf cs ≤ N + 1 := by
        have h0 : sizeOf (FilterExpr.notE cs) = 1 + sizeOf cs := by simp
        omega
      have hsj : ∀ j, parenScan (spaceJoin cs).data j = some j :=
        spaceJoin_scan cs
          (fun c hcm hcc n' =>
            ih c (by have := List.sizeOf_lt_of_mem hcm; omega) hcc n')
          hc
      have e1 : ("(NOT " ++ spaceJoin cs ++ ")").data =
          '(' :: 'N' :: 'O' :: 'T' :: ' ' ::
            ((spaceJoin cs).data ++ [')']) := by
        simp [String.data_append]
      rw [show compile (.notE cs) = "(NOT " ++ spaceJoin cs ++ ")" from rfl,
          e1]
      rw [show parenScan ('(' :: 'N' :: 'O' :: 'T' :: ' ' ::
              ((spaceJoin cs).data ++ [')'])) n =
            parenScan ((spaceJoin cs).data ++ [')']) (n + 1) from rfl]
      rw [parenScan_append, hsj]
      rfl

/-- Rendering distributes over token-list concatenation. -/
theorem renderToks_append :
    ∀ (a b : List QTok), renderToks (a ++ b) = renderToks a ++ renderToks b := by
  intro a b
  induction a with
  | nil => rfl
  | cons t rest ih =>
    show t.render ++ renderToks (rest ++ b) =
      (t.render ++ renderToks rest) ++ renderToks b
    rw [ih, String.append_assoc]

/-- The keyword token of a field renders as its keyword. -/
theorem Fld_tok_render (f : Fld) : (Fld.tok f).render = Fld.keyword f := by
  cases f <;> rfl

/-- The token decomposition of the `or_combine` fold renders back to the
fold of the rendered pieces. -/
theorem orToks_render :
    ∀ (tl : List FilterExpr),
      (∀ c ∈ tl, compile c = renderToks (toks c)) →
      ∀ (acc : String) (accT : List QTok), acc = renderToks accT →
        orFold acc tl = renderToks (orToks accT tl) := by
  intro tl
  induction tl with
  | nil => intro _ acc accT h; exact h
  | cons c rest ih =>
    intro IH acc accT h
    rw [show orFold acc (c :: rest) =
          orFold ("(OR " ++ acc ++ " " ++ compile c ++ ")") rest from rfl,
        show orToks accT (c :: rest) =
          orToks ([QTok.lpar, QTok.kwOR, QTok.space] ++ accT ++
            [QTok.space] ++ toks c ++ [QTok.rpar]) rest from rfl]
    refine ih (fun x hx => IH x (List.mem_cons_of_mem _ hx)) _ _ ?_
    rw [renderToks_append, renderToks_append, renderToks_append,
        renderToks_append]
    rw [show renderToks [QTok.lpar, QTok.kwOR, QTok.space] = "(OR " from rfl,
        show renderToks [QTok.space] = " " from rfl,
        show renderToks [QTok.rpar] = ")" from rfl,
        ← h, ← IH c (List.mem_cons_self c rest)]

/-- The token decomposition of the `and_combine` fold renders back to the
fold of the rendered pieces. -/
theorem andToks_render :
    ∀ (tl : List FilterExpr),
      (∀ c ∈ tl, compile c = renderToks (toks c)) →
      ∀ (acc : String) (accT : List QTok), acc = renderToks accT →
        andFold acc tl = renderToks (andToks accT tl) := by
  intro tl
  induction tl with
  | nil => intro _ acc accT h; exact h
  | cons c rest ih =>
    intro IH acc accT h
    rw [show andFold acc (c :: rest) =
          andFold ("(" ++ acc ++ " " ++ compile c ++ ")") rest from rfl,
        show andToks accT (c :: rest) =
          andToks ([QTok.lpar] ++ accT ++ [QTok.space] ++ toks c ++
            [QTok.rpar]) rest from rfl]
    refine ih (fun x hx => IH x (List.mem_cons_of_mem _ hx)) _ _ ?_
    rw [renderToks_append, renderToks_append, renderToks_append,
        renderToks_append]
    rw [show renderToks [QTok.lpar] = "(" from rfl,
        show renderToks [QTok.space] = " " from rfl,
        show renderToks [QTok.rpar] = ")" from rfl,
        ← h, ← IH c (List.mem_cons_self c rest)]

/-- The token decomposition of the space join renders back to the join. -/
theorem spaceJoinToks_render :
    ∀ (cs : List FilterExpr),
      (∀ c ∈ cs, compile c = renderToks (toks c)) →
      spaceJoin cs = renderToks (spaceJoinToks cs) := by
  intro cs
  induction cs with
  | nil => intro _; rfl
  | cons c rest ih =>
    intro IH
    cases rest with
    | nil => exact IH c (List.mem_cons_self c [])
    | cons d ds =>
      rw [show spaceJoin (c :: d :: ds) =
            compile c ++ " " ++ spaceJoin (d :: ds) from rfl,
          show spaceJoinToks (c :: d :: ds) =
            toks c ++ [QTok.space] ++ spaceJoinToks (d :: ds) from rfl]
      rw [renderToks_append, renderToks_append,
          show renderToks [QTok.space] = " " from rfl,
          ← IH c (List.mem_cons_self c (d :: ds)),
          ← ih (fun x hx => IH x (List.mem_cons_of_mem _ hx))]

/-- Every compiled search string is exactly the rendering of its token
decomposition into parentheses, spaces, the six keywords and quoted field
values. -/
theorem compile_renderToks_bounded :
    ∀ (N : Nat) (e : FilterExpr), sizeOf e ≤ N →
      compile e = renderToks (toks e) := by
  intro N
  induction N with
  | zero =>
    intro e he
    have := FilterExpr_sizeOf_pos e
    omega
  | succ N ih =>
    intro e he
    cases e with
    | field f v =>
      show "(" ++ f.keyword ++ " \"" ++ v ++ "\")" =
        renderToks [QTok.lpar, Fld.tok f, QTok.space, QTok.quoted v,
          QTok.rpar]
      rw [show renderToks [QTok.lpar, Fld.tok f, QTok.space, QTok.quoted v,
            QTok.rpar] =
          "(" ++ ((Fld.tok f).render ++ (" " ++ (("\"" ++ v ++ "\"") ++
            (")" ++ "")))) from rfl, Fld_tok_render]
      apply String.ext
      simp [String.data_append]
    | orE hd tl =>
      have hsz : 1 + sizeOf hd + sizeOf tl ≤ N + 1 := by
        have h0 : sizeOf (FilterExpr.orE hd tl) =
            1 + sizeOf hd + sizeOf tl := by simp
        omega
      have hhd : sizeOf hd ≤ N := by
        have := FilterExpr_sizeOf_pos hd
        omega
      exact orToks_render tl
        (fun c hcm => ih c (by have := List.sizeOf_lt_of_mem hcm; omega))
        (compile hd) (toks hd) (ih hd hhd)
    | andE hd tl =>
      have hsz : 1 + sizeOf hd + sizeOf tl ≤ N + 1 := by
        have h0 : sizeOf (FilterExpr.andE hd tl) =
            1 + sizeOf hd + sizeOf tl := by simp
        omega
      have hhd : sizeOf hd ≤ N := by
        have := FilterExpr_sizeOf_pos hd
        omega
      exact andToks_render tl
        (fun c hcm => ih c (by have := List.sizeOf_lt_of_mem hcm; omega))
        (compile hd) (toks hd) (ih hd hhd)
    | notE cs =>
      have hsz : 1 + sizeOf cs ≤ N + 1 := by
        have h0 : sizeOf (FilterExpr.notE cs) = 1 + sizeOf cs := by simp
        omega
      have hsj : spaceJoin cs = renderToks (spaceJoinToks cs) :=
        spaceJoinToks_render cs
          (fun c hcm => ih c (by have := List.sizeOf_lt_of_mem hcm; omega))
      show "(NOT " ++ spaceJoin cs ++ ")" =
        renderToks ([QTok.lpar, QTok.kwNOT, QTok.space] ++
          spaceJoinToks cs ++ [QTok.rpar])
      rw [renderToks_append, renderToks_append,
          show renderToks [QTok.lpar, QTok.kwNOT, QTok.space] = "(NOT "
            from rfl,
          show renderToks [QTok.rpar] = ")" from rfl, ← hsj]

/-- A string whose scan ends at depth zero is balanced. -/
theorem balanced_of_scan (s : String)
    (h : parenScan s.data 0 = some 0) : balancedParens s = true := by
  unfold balancedParens
  rw [h]
  rfl

/-- C9 fails for truly arbitrary string values: a field value containing
a parenthesis character unbalances the compiled search string. -/
theorem query_balanced_counterexample :
    compile (FilterExpr.field Fld.fromF "(") = "(FROM \"(\")" ∧
    balancedParens (compile (FilterExpr.field Fld.fromF "(")) = false :=
  ⟨rfl, by decide⟩

/-- C9 amended: for every filter tree `e` whose field values contain no
parenthesis characters, the compiled search string has balanced
parentheses, and the top-level `parseQuery` evaluation of a paren-clean
expression list likewise yields balanced output; for every filter tree
`e'` with arbitrary string values the compiled string is exactly the
rendering of its token decomposition — parentheses, spaces, quoted field
values and keyword tokens only — and every keyword token among them is
one of FROM, TO, CC, SUBJECT, OR, NOT. -/
theorem query_compile_balanced_keywords (e e' : FilterExpr)
    (es : List FilterExpr) (hc : cleanExpr e = true)
    (hes : cleanList es = true) :
    balancedParens (compile e) = true ∧
    compile e' = renderToks (toks e') ∧
    (∀ t ∈ toks e', ∀ s, QTok.keywordStr t = some s →
      s ∈ ["FROM", "TO", "CC", "SUBJECT", "OR", "NOT"]) ∧
    (∀ s, parseQuery es = some s → balancedParens s = true) := by
  refine ⟨balanced_of_scan _ (compile_scan_bounded (sizeOf e) e le_rfl hc 0),
    compile_renderToks_bounded (sizeOf e') e' le_rfl, ?_, ?_⟩
  · intro t _ s hs
    cases t <;> simp_all [QTok.keywordStr]
  · intro s hs
    cases es with
    | nil => exact absurd hs (by simp [parseQuery])
    | cons hq tq =>
      rw [cleanList, Bool.and_eq_true] at hes
      have h1 : ∀ n, parenScan (compile hq).data n = some n :=
        compile_scan_bounded (sizeOf hq) hq le_rfl hes.1
      have hsv : (if tq.isEmpty then some (compile hq)
          else some (orFold (compile hq) tq)) = some s := hs
      by_cases ht : tq.isEmpty
      · rw [if_pos ht, Option.some.injEq] at hsv
        rw [← hsv]
        exact balanced_of_scan _ (h1 0)
      · rw [if_neg ht, Option.some.injEq] at hsv
        rw [← hsv]
        exact balanced_of_scan _
          (orFold_scan tq
            (fun c _ hcc n =>
              compile_scan_bounded (sizeOf c) c le_rfl hcc n)
            hes.2 (compile hq) h1 0)

/-- C9 amended witness: a concrete paren-clean tree using all four fields
and all three combinators for the balancedness conjuncts, a concrete tree
whose values contain parentheses and a quote for the token-decomposition
conjuncts, and a concrete two-element top-level list. -/
theorem query_compile_balanced_keywords_witness :
    balancedParens (compile (FilterExpr.orE
      (FilterExpr.field Fld.fromF "a@b")
      [FilterExpr.andE (FilterExpr.field Fld.toF "c")
        [FilterExpr.notE [FilterExpr.field Fld.ccF "d",
          FilterExpr.field Fld.subjF "e"]]])) = true ∧
    compile (FilterExpr.notE [FilterExpr.field Fld.fromF "(",
      FilterExpr.orE (FilterExpr.field Fld.toF "\"")
        [FilterExpr.field Fld.subjF ")("]]) =
      renderToks (toks (FilterExpr.notE [FilterExpr.field Fld.fromF "(",
        FilterExpr.orE (FilterExpr.field Fld.toF "\"")
          [FilterExpr.field Fld.subjF ")("]])) ∧
    (∀ t ∈ toks (FilterExpr.notE [FilterExpr.field Fld.fromF "(",
        FilterExpr.orE (FilterExpr.field Fld.toF "\"")
          [FilterExpr.field Fld.subjF ")("]]),
      ∀ s, QTok.keywordStr t = some s →
        s ∈ ["FROM", "TO", "CC", "SUBJECT", "OR", "NOT"]) ∧
    (∀ s, parseQuery [FilterExpr.field Fld.fromF "x",
        FilterExpr.field Fld.toF "y"] = some s →
      balancedParens s = true) :=
  query_compile_balanced_keywords
    (FilterExpr.orE (FilterExpr.field Fld.fromF "a@b")
      [FilterExpr.andE (FilterExpr.field Fld.toF "c")
        [FilterExpr.notE [FilterExpr.field Fld.ccF "d",
          FilterExpr.field Fld.subjF "e"]]])
    (FilterExpr.notE [FilterExpr.field Fld.fromF "(",
      FilterExpr.orE (FilterExpr.field Fld.toF "\"")
        [FilterExpr.field Fld.subjF ")("]])
    [FilterExpr.field Fld.fromF "x", FilterExpr.field Fld.toF "y"]
    (by decide) (by decide)

end Mailbot
